import Mathlib

/-!
Verification of the probefinder BLE utility core against its
natural-language specification.

The TypeScript source is shallowly embedded:
* a `DataView` of bytes becomes a `List Nat` whose entries are read
  modulo 256 (a `DataView` stores bytes; `getUint8` returns 0..255);
* an out-of-range `DataView.getUint8` call throws a `RangeError` in
  JavaScript, aborting the surrounding computation; this is modelled by
  `Option`/`Except`-valued reads, the failure being `DecodeError.tooShort`;
* JavaScript numbers produced by the 32-bit bitwise operators (`<<`, `|`)
  are signed 32-bit values, modelled by `toInt32`;
* the React `setDevices` state updates become explicit list-transforming
  step functions folded over the incoming event stream.
-/

/-- Decode failure: the payload is shorter than the fixed layout requires
(in the source an out-of-range `DataView.getUint8` throws `RangeError`). -/
inductive DecodeError where
  | tooShort
deriving DecidableEq, Repr

/-- `dataView.getUint8 i` on a byte list: `none` when `i` is out of range
(JavaScript throws `RangeError`), otherwise the byte value (0..255). -/
def byteAt (p : List Nat) (i : Nat) : Option Nat :=
  (p.get? i).map (fun b => b % 256)

/-- The byte at index `i`, defaulting to 0; used only to state results
about payloads long enough that the index is in range. -/
def byteD (p : List Nat) (i : Nat) : Nat :=
  (p.getD i 0) % 256

/-- One lowercase hexadecimal digit character, as produced by JavaScript
`Number.prototype.toString(16)` for a value 0..15. -/
def hexDigit (n : Nat) : Char :=
  if n < 10 then Char.ofNat (48 + n) else Char.ofNat (87 + n)

/-- `b.toString(16).padStart(2, '0')` for a byte `b` (0..255): exactly two
lowercase hex digits, high nibble first. -/
def byteToHex (b : Nat) : String :=
  String.mk [hexDigit (b / 16 % 16), hexDigit (b % 16)]

/-- The result object of `parseManufacturerData` for one payload:
model id and probe id as `0x`-prefixed hex strings, the serial number
as a bare hex string, and the battery byte. -/
structure ParsedIdentity where
  modelId : String
  probeId : String
  probeSerialNumber : String
  batteryStateOfCharge : Nat
deriving DecidableEq, Repr

/-- The little-endian 32-bit value of the four bytes at offsets
`i .. i+3` of the payload (spec wording: byte `i` contributes bits 0-7,
byte `i+3` bits 24-31). -/
def leU32 (p : List Nat) (i : Nat) : Nat :=
  byteD p i + 256 * byteD p (i + 1) + 65536 * byteD p (i + 2) +
    16777216 * byteD p (i + 3)

/-- Rendering of a 32-bit value as exactly eight lowercase hex digits
(leading zeros preserved), following the spec's description of the
decoded string fields. -/
def uint32ToHex8 (n : Nat) : String :=
  byteToHex (n / 16777216 % 256) ++ byteToHex (n / 65536 % 256) ++
    byteToHex (n / 256 % 256) ++ byteToHex (n % 256)

/-- `parseManufacturerData` applied to a single `DataView`
(`decodeManufacturerPayload` in the spec).  The source helper
`readLittleEndianUint32(offset)` concatenates the hex renderings of the
bytes at `offset+3, offset+2, offset+1, offset` and optionally prefixes
`0x`; the battery byte is read at offset 19.  Any out-of-range read
aborts the whole computation (`RangeError` in the source). -/
def parseOne (p : List Nat) : Except DecodeError ParsedIdentity :=
  match byteAt p 0, byteAt p 1, byteAt p 2, byteAt p 3,
        byteAt p 4, byteAt p 5, byteAt p 6, byteAt p 7,
        byteAt p 8, byteAt p 9, byteAt p 10, byteAt p 11,
        byteAt p 19 with
  | some b0, some b1, some b2, some b3,
    some b4, some b5, some b6, some b7,
    some b8, some b9, some b10, some b11,
    some b19 =>
      .ok { modelId := "0x" ++ (byteToHex b3 ++ byteToHex b2 ++ byteToHex b1 ++ byteToHex b0)
            probeId := "0x" ++ (byteToHex b7 ++ byteToHex b6 ++ byteToHex b5 ++ byteToHex b4)
            probeSerialNumber := byteToHex b11 ++ byteToHex b10 ++ byteToHex b9 ++ byteToHex b8
            batteryStateOfCharge := b19 }
  | _, _, _, _, _, _, _, _, _, _, _, _, _ => .error .tooShort

/-- `parseManufacturerData` over all values of the manufacturer-data
dictionary (in key order): each payload is decoded in turn; a failure on
any entry aborts the whole call (the `RangeError` propagates out of the
`forEach`). -/
def parseManufacturerData : List (List Nat) → Except DecodeError (List ParsedIdentity)
  | [] => .ok []
  | p :: rest => do
      let head ← parseOne p
      let tail ← parseManufacturerData rest
      return head :: tail

example : parseOne [0x00, 0x23, 0x00, 0x11, 0x01, 0x14, 0x00, 0x11,
    0x50, 0x16, 0x00, 0x11, 0, 0, 0, 0, 0, 0, 0, 0x5A] =
    .ok ⟨"0x11002300", "0x11001401", "11001650", 90⟩ := by rfl

example : parseOne [1, 2, 3] = .error .tooShort := by rfl

/-- Whether a character is a lowercase hexadecimal digit (`0`-`9` or
`a`-`f`), the alphabet `Number.prototype.toString(16)` draws from. -/
def isLowerHexDigit (c : Char) : Bool :=
  ('0' ≤ c ∧ c ≤ '9') ∨ ('a' ≤ c ∧ c ≤ 'f')

/-! ## Proximity classifier (`getRssiDescription`) -/

/-- One row of the `RSSI_THRESHOLDS` table. -/
structure RssiThreshold where
  max : Int
  label : String
  color : String

/-- The fixed `RSSI_THRESHOLDS` table, strongest band first. -/
def RSSI_THRESHOLDS : List RssiThreshold :=
  [ { max := -60, label := "VERY CLOSE", color := "green" },
    { max := -70, label := "NEAR", color := "green" },
    { max := -80, label := "FAR", color := "darkorange" },
    { max := -90, label := "VERY FAR", color := "red" } ]

/-- The `{description, color}` object returned by `getRssiDescription`. -/
structure RssiDescription where
  description : String
  color : String
deriving DecidableEq, Repr

/-- `getRssiDescription`: the first threshold of `RSSI_THRESHOLDS` with
`rssi > threshold.max` wins; with no match the result is
`Unknown`/`gray`. -/
def getRssiDescription (rssi : Int) : RssiDescription :=
  match RSSI_THRESHOLDS.find? (fun t => rssi > t.max) with
  | some t => { description := t.label, color := t.color }
  | none => { description := "Unknown", color := "gray" }

/-- Strength order of the labels `getRssiDescription` can produce:
`VERY CLOSE` strongest, then `NEAR`, `FAR`, `VERY FAR`, and `Unknown`
weakest. -/
def labelRank (s : String) : Nat :=
  if s = "VERY CLOSE" then 4
  else if s = "NEAR" then 3
  else if s = "FAR" then 2
  else if s = "VERY FAR" then 1
  else 0

/-! ## Acknowledgment-frame decoder (`subscribeToNotifications` callback) -/

/-- JavaScript `ToInt32`: the 32-bit bitwise operators produce a signed
32-bit result.  `(b4 << 0) | (b5 << 8) | (b6 << 16) | (b7 << 24)` on
bytes equals `ToInt32` of the little-endian 32-bit value. -/
def toInt32 (n : Nat) : Int :=
  if n % 4294967296 < 2147483648 then ((n % 4294967296 : Nat) : Int)
  else ((n % 4294967296 : Nat) : Int) - 4294967296

/-- The fields extracted by the notification callback in
`subscribeToNotifications` (the acknowledgment frame of the spec). -/
structure AckFrame where
  commandType : Char
  commandCode : Nat
  seqCommandNumber : Int
  dataByteCount : Nat
  dataChecksum : Nat
  headerChecksum : Nat
  commandStatus : Nat
deriving DecidableEq, Repr

/-- The acknowledgment decoding performed by the notification callback of
`subscribeToNotifications`: `commandType = String.fromCharCode(byte 2)`,
`commandCode = byte 3`, the sequential command number is assembled from
bytes 4-7 with JavaScript's signed 32-bit `<<`/`|`, and the four 16-bit
fields come from byte pairs 8-9, 10-11, 12-13, 14-15.  An out-of-range
read aborts the whole callback (`RangeError` in the source). -/
def decodeAck (p : List Nat) : Except DecodeError AckFrame :=
  match byteAt p 2, byteAt p 3, byteAt p 4, byteAt p 5,
        byteAt p 6, byteAt p 7, byteAt p 8, byteAt p 9,
        byteAt p 10, byteAt p 11, byteAt p 12, byteAt p 13,
        byteAt p 14, byteAt p 15 with
  | some b2, some b3, some b4, some b5, some b6, some b7,
    some b8, some b9, some b10, some b11, some b12, some b13,
    some b14, some b15 =>
      .ok { commandType := Char.ofNat b2
            commandCode := b3
            seqCommandNumber := toInt32 (b4 + 256 * b5 + 65536 * b6 + 16777216 * b7)
            dataByteCount := b8 + 256 * b9
            dataChecksum := b10 + 256 * b11
            headerChecksum := b12 + 256 * b13
            commandStatus := b14 + 256 * b15 }
  | _, _, _, _, _, _, _, _, _, _, _, _, _, _ => .error .tooShort

example : getRssiDescription (-59) = ⟨"VERY CLOSE", "green"⟩ := by rfl
example : getRssiDescription (-95) = ⟨"Unknown", "gray"⟩ := by rfl
example :
    decodeAck [0, 0, 0x41, 1, 0, 0, 0, 0x80, 1, 0, 2, 0, 3, 0, 4, 0] =
      .ok ⟨'A', 1, -2147483648, 1, 2, 3, 4⟩ := by rfl

/-! ## Device registry -/

/-- One advertisement event as delivered to the scan callbacks: the
device (`deviceId`, optional advertised `name`), the signal strength,
and the values of the manufacturer-data dictionary in key order. -/
structure ScanEvent where
  id : String
  name : Option String
  rssi : Int
  manufacturerData : List (List Nat)
deriving DecidableEq, Repr

/-- A row of the device list kept by the `Home` page (`part_002`):
`{...device, rssi, parsedManufacturerData}`. -/
structure DeviceRec where
  deviceId : String
  name : Option String
  rssi : Int
  parsedManufacturerData : List ParsedIdentity
deriving DecidableEq, Repr

/-- The `findIndex`-then-copy update of `handleScanResult`: replace the
first record whose `deviceId` matches, overwriting its `rssi` and
`parsedManufacturerData` and keeping everything else (including its
position). -/
def updateFirst (eid : String) (r : Int) (pd : List ParsedIdentity) :
    List DeviceRec → List DeviceRec
  | [] => []
  | d :: rest =>
      if d.deviceId = eid then
        { d with rssi := r, parsedManufacturerData := pd } :: rest
      else
        d :: updateFirst eid r pd rest

/-- `handleScanResult` (`part_002`, Home page): decode the manufacturer
data first — a decode failure throws out of the handler before
`setDevices` runs, leaving the list untouched — then update the existing
record in place or append a fresh one. -/
def applyScanResult (devs : List DeviceRec) (e : ScanEvent) : List DeviceRec :=
  match parseManufacturerData e.manufacturerData with
  | .error _ => devs
  | .ok pd =>
      if ∃ d ∈ devs, d.deviceId = e.id then
        updateFirst e.id e.rssi pd devs
      else
        devs ++ [{ deviceId := e.id, name := e.name, rssi := e.rssi,
                   parsedManufacturerData := pd }]

/-- The device list after a sequence of advertisement events has been
applied through `handleScanResult`, starting from the empty list. -/
def runRegistry (evs : List ScanEvent) : List DeviceRec :=
  evs.foldl applyScanResult []

/-- The most recent advertisement carried by `evs` for device `id`. -/
def lastAdvFor (evs : List ScanEvent) (id : String) : Option ScanEvent :=
  (evs.filter (fun e => e.id = id)).getLast?

/-- A row of the accumulator inside `scanForBleDevices` (`part_000`):
`{...device, rssi, manufacturerData}` with the raw payloads. -/
structure ScanAccDevice where
  deviceId : String
  name : Option String
  rssi : Int
  manufacturerData : List (List Nat)
deriving DecidableEq, Repr

/-- The advertisement callback of `scanForBleDevices` (`part_000`,
lines 42-54): a device is pushed only if no record with its `deviceId`
exists yet; later advertisements for a known id are dropped entirely. -/
def scanForBleDevicesStep (devices : List ScanAccDevice) (e : ScanEvent) :
    List ScanAccDevice :=
  if ∃ d ∈ devices, d.deviceId = e.id then devices
  else devices ++ [{ deviceId := e.id, name := e.name, rssi := e.rssi,
                     manufacturerData := e.manufacturerData }]

/-! ## Outgoing commands (`sendBeep`, `readSerialNumber`) -/

/-- JavaScript `String.prototype.trim` restricted to the space character
(the only whitespace the command literals could carry). -/
def jsTrim (cs : List Char) : List Char :=
  ((cs.dropWhile (fun c => c = ' ')).reverse.dropWhile (fun c => c = ' ')).reverse

/-- `value.split(' ')`: split on every single space character. -/
def splitSpaces : List Char → List Char → List (List Char)
  | [], acc => [acc.reverse]
  | c :: cs, acc =>
      if c = ' ' then acc.reverse :: splitSpaces cs []
      else splitSpaces cs (c :: acc)

/-- The numeric value of one hexadecimal digit character, if any. -/
def hexVal (c : Char) : Option Nat :=
  if '0' ≤ c ∧ c ≤ '9' then some (c.toNat - 48)
  else if 'a' ≤ c ∧ c ≤ 'f' then some (c.toNat - 87)
  else if 'A' ≤ c ∧ c ≤ 'F' then some (c.toNat - 55)
  else none

/-- JavaScript `parseInt(s, 16)` on an unsigned token: strip an optional
`0x`/`0X`, read the longest prefix of hex digits, `NaN` (here `none`)
when no digit is read. -/
def parseIntHex (cs : List Char) : Option Nat :=
  let body := match cs with
    | '0' :: 'x' :: rest => rest
    | '0' :: 'X' :: rest => rest
    | l => l
  let digits := body.takeWhile (fun c => (hexVal c).isSome)
  match digits with
  | [] => none
  | ds => some (ds.foldl (fun acc c => acc * 16 + (hexVal c).getD 0) 0)

/-- `hexStringToDataView` from the BLE library: trim, split on spaces,
`parseInt(_, 16)` each token, store as bytes (`Uint8Array` coerces `NaN`
to 0 and truncates modulo 256). -/
def hexStringToDataView (s : String) : List Nat :=
  (splitSpaces (jsTrim s.data) []).map (fun tok => (parseIntHex tok).getD 0 % 256)

/-- The byte sequence `sendBeep` writes to the command characteristic:
`hexStringToDataView('0x06')`. -/
def sendBeepBytes : List Nat := hexStringToDataView "0x06"

/-- The byte sequence `readSerialNumber` writes to the command
characteristic: `hexStringToDataView('0x21')`. -/
def readSerialNumberBytes : List Nat := hexStringToDataView "0x21"

/-! ## Teardown paths (`stopScan`, `handleDisconnectFromDevice`) -/

/-- Outcome of one call into the external wireless stack. -/
inductive TransportOutcome where
  | ok
  | err (e : String)
deriving DecidableEq, Repr

/-- `stopScan` (`part_000`, lines 312-319): await `stopLEScan`; on
failure the `catch` block logs and rethrows, so the transport error
propagates to the caller. -/
def stopScan (stopLEScan : TransportOutcome) : Except String Unit :=
  match stopLEScan with
  | .ok => .ok ()
  | .err e => .error e

/-- `handleDisconnectFromDevice` (`part_002`, lines 347-359): await
`BleClient.disconnect`; on success clear the connected-device id, on
failure the `catch` block only logs — the error is swallowed and the
connected-device id is left as it was.  The function itself never
raises. -/
def handleDisconnectFromDevice (disconnectResult : TransportOutcome)
    (connectedDeviceId : Option String) : Except String (Option String) :=
  match disconnectResult with
  | .ok => .ok none
  | .err _ => .ok connectedDeviceId

example : sendBeepBytes = [6] := by rfl
example : readSerialNumberBytes = [33] := by rfl
example :
    runRegistry [⟨"d1", none, -50, [List.replicate 20 0]⟩,
      ⟨"d1", none, -80, [List.replicate 20 0]⟩] =
    [⟨"d1", none, -80, [⟨"0x00000000", "0x00000000", "00000000", 0⟩]⟩] := by rfl
example :
    ([⟨"d1", none, -50, []⟩, ⟨"d1", none, -80, []⟩] : List ScanEvent).foldl
      scanForBleDevicesStep [] = [⟨"d1", none, -50, []⟩] := by rfl

/-! ## Supporting lemmas: byte reads and hex rendering -/

theorem byteD_lt (p : List Nat) (i : Nat) : byteD p i < 256 :=
  Nat.mod_lt _ (by norm_num)

theorem byteAt_eq :
    ∀ (p : List Nat) (i : Nat), i < p.length → byteAt p i = some (byteD p i) := by
  intro p
  induction p with
  | nil => intro i h; simp at h
  | cons a t ih =>
      intro i h
      cases i with
      | zero => rfl
      | succ i =>
          have : i < t.length := by simp at h; omega
          exact ih i this

theorem byteAt_take :
    ∀ (p : List Nat) (n i : Nat), i < n → byteAt (p.take n) i = byteAt p i := by
  intro p
  induction p with
  | nil => intro n i h; simp
  | cons a t ih =>
      intro n i h
      cases n with
      | zero => omega
      | succ n =>
          cases i with
          | zero => rfl
          | succ i => exact ih n i (by omega)

theorem hex8_bytes (b0 b1 b2 b3 : Nat) (h0 : b0 < 256) (h1 : b1 < 256)
    (h2 : b2 < 256) (h3 : b3 < 256) :
    byteToHex b3 ++ byteToHex b2 ++ byteToHex b1 ++ byteToHex b0 =
      uint32ToHex8 (b0 + 256 * b1 + 65536 * b2 + 16777216 * b3) := by
  unfold uint32ToHex8
  have e3 : (b0 + 256 * b1 + 65536 * b2 + 16777216 * b3) / 16777216 % 256 = b3 := by
    omega
  have e2 : (b0 + 256 * b1 + 65536 * b2 + 16777216 * b3) / 65536 % 256 = b2 := by
    omega
  have e1 : (b0 + 256 * b1 + 65536 * b2 + 16777216 * b3) / 256 % 256 = b1 := by
    omega
  have e0 : (b0 + 256 * b1 + 65536 * b2 + 16777216 * b3) % 256 = b0 := by
    omega
  rw [e3, e2, e1, e0]

theorem parseOne_spec (p : List Nat) (h : 20 ≤ p.length) :
    parseOne p = .ok { modelId := "0x" ++ uint32ToHex8 (leU32 p 0)
                       probeId := "0x" ++ uint32ToHex8 (leU32 p 4)
                       probeSerialNumber := uint32ToHex8 (leU32 p 8)
                       batteryStateOfCharge := byteD p 19 } := by
  have e1 : byteToHex (byteD p 3) ++ byteToHex (byteD p 2) ++ byteToHex (byteD p 1) ++
      byteToHex (byteD p 0) = uint32ToHex8 (leU32 p 0) := by
    simpa [leU32] using
      hex8_bytes (byteD p 0) (byteD p 1) (byteD p 2) (byteD p 3)
        (byteD_lt p 0) (byteD_lt p 1) (byteD_lt p 2) (byteD_lt p 3)
  have e2 : byteToHex (byteD p 7) ++ byteToHex (byteD p 6) ++ byteToHex (byteD p 5) ++
      byteToHex (byteD p 4) = uint32ToHex8 (leU32 p 4) := by
    simpa [leU32] using
      hex8_bytes (byteD p 4) (byteD p 5) (byteD p 6) (byteD p 7)
        (byteD_lt p 4) (byteD_lt p 5) (byteD_lt p 6) (byteD_lt p 7)
  have e3 : byteToHex (byteD p 11) ++ byteToHex (byteD p 10) ++ byteToHex (byteD p 9) ++
      byteToHex (byteD p 8) = uint32ToHex8 (leU32 p 8) := by
    simpa [leU32] using
      hex8_bytes (byteD p 8) (byteD p 9) (byteD p 10) (byteD p 11)
        (byteD_lt p 8) (byteD_lt p 9) (byteD_lt p 10) (byteD_lt p 11)
  simp only [parseOne,
    byteAt_eq p 0 (by omega), byteAt_eq p 1 (by omega), byteAt_eq p 2 (by omega),
    byteAt_eq p 3 (by omega), byteAt_eq p 4 (by omega), byteAt_eq p 5 (by omega),
    byteAt_eq p 6 (by omega), byteAt_eq p 7 (by omega), byteAt_eq p 8 (by omega),
    byteAt_eq p 9 (by omega), byteAt_eq p 10 (by omega), byteAt_eq p 11 (by omega),
    byteAt_eq p 19 (by omega), e1, e2, e3]

theorem byteAt_none :
    ∀ (p : List Nat) (i : Nat), p.length ≤ i → byteAt p i = none := by
  intro p
  induction p with
  | nil => intro i _; rfl
  | cons a t ih =>
      intro i h
      cases i with
      | zero => simp at h
      | succ i => exact ih i (by simp at h; omega)

theorem parseOne_err_of_byte19 (p : List Nat) (h : byteAt p 19 = none) :
    parseOne p = .error .tooShort := by
  unfold parseOne
  rw [h]
  rcases byteAt p 0 with _ | b0 <;> rcases byteAt p 1 with _ | b1 <;>
    rcases byteAt p 2 with _ | b2 <;> rcases byteAt p 3 with _ | b3 <;>
    rcases byteAt p 4 with _ | b4 <;> rcases byteAt p 5 with _ | b5 <;>
    rcases byteAt p 6 with _ | b6 <;> rcases byteAt p 7 with _ | b7 <;>
    rcases byteAt p 8 with _ | b8 <;> rcases byteAt p 9 with _ | b9 <;>
    rcases byteAt p 10 with _ | b10 <;> rcases byteAt p 11 with _ | b11 <;>
    rfl

/-! ## Supporting lemmas: proximity classifier -/

theorem getRssiDescription_eq (r : Int) :
    getRssiDescription r =
      if -60 < r then ⟨"VERY CLOSE", "green"⟩
      else if -70 < r then ⟨"NEAR", "green"⟩
      else if -80 < r then ⟨"FAR", "darkorange"⟩
      else if -90 < r then ⟨"VERY FAR", "red"⟩
      else ⟨"Unknown", "gray"⟩ := by
  unfold getRssiDescription RSSI_THRESHOLDS
  by_cases h1 : (-60 : Int) < r <;> by_cases h2 : (-70 : Int) < r <;>
    by_cases h3 : (-80 : Int) < r <;> by_cases h4 : (-90 : Int) < r <;>
    simp [List.find?, gt_iff_lt, h1, h2, h3, h4]

/-! ## Supporting lemmas: hex string shape -/

theorem hexDigit_lower (n : Nat) (h : n < 16) : isLowerHexDigit (hexDigit n) = true := by
  interval_cases n <;> decide

theorem byteToHex_length (b : Nat) : (byteToHex b).length = 2 := rfl

theorem byteToHex_lower (b : Nat) :
    (byteToHex b).data.all isLowerHexDigit = true := by
  simp only [byteToHex, List.all]
  rw [hexDigit_lower (b / 16 % 16) (Nat.mod_lt _ (by norm_num)),
    hexDigit_lower (b % 16) (Nat.mod_lt _ (by norm_num))]
  rfl

theorem uint32ToHex8_length (n : Nat) : (uint32ToHex8 n).length = 8 := by
  simp [uint32ToHex8, String.length_append, byteToHex_length]

theorem uint32ToHex8_lower (n : Nat) :
    (uint32ToHex8 n).data.all isLowerHexDigit = true := by
  simp only [uint32ToHex8, String.data_append, List.all_append]
  simp [byteToHex_lower]

/-! ## Supporting lemmas: device registry -/

theorem parseManufacturerData_ok (pl : List (List Nat))
    (h : ∀ p ∈ pl, 20 ≤ p.length) :
    ∃ arr, parseManufacturerData pl = .ok arr := by
  induction pl with
  | nil => exact ⟨[], rfl⟩
  | cons p rest ih =>
      obtain ⟨arr, ha⟩ := ih (fun q hq => h q (by simp [hq]))
      have hp := parseOne_spec p (h p (by simp))
      refine ⟨{ modelId := "0x" ++ uint32ToHex8 (leU32 p 0)
                probeId := "0x" ++ uint32ToHex8 (leU32 p 4)
                probeSerialNumber := uint32ToHex8 (leU32 p 8)
                batteryStateOfCharge := byteD p 19 } :: arr, ?_⟩
      simp [parseManufacturerData, hp, ha]
      rfl

theorem updateFirst_map_id (eid : String) (r : Int) (pd : List ParsedIdentity) :
    ∀ devs : List DeviceRec,
      (updateFirst eid r pd devs).map (fun d => d.deviceId) =
        devs.map (fun d => d.deviceId) := by
  intro devs
  induction devs with
  | nil => rfl
  | cons d rest ih =>
      by_cases h : d.deviceId = eid <;> simp [updateFirst, h, ih]

theorem updateFirst_mem_eq (eid : String) (r : Int) (pd : List ParsedIdentity) :
    ∀ (devs : List DeviceRec) (d : DeviceRec),
      (devs.map (fun x => x.deviceId)).Nodup → d ∈ updateFirst eid r pd devs →
      d.deviceId = eid → d.rssi = r ∧ d.parsedManufacturerData = pd := by
  intro devs
  induction devs with
  | nil => intro d _ hd _; simp [updateFirst] at hd
  | cons d0 rest ih =>
      intro d hnd hd hid
      by_cases h0 : d0.deviceId = eid
      · rw [updateFirst, if_pos h0] at hd
        rcases List.mem_cons.mp hd with hdu | hdr
        · subst hdu; exact ⟨rfl, rfl⟩
        · exfalso
          have hmem : d.deviceId ∈ rest.map (fun x => x.deviceId) :=
            List.mem_map_of_mem _ hdr
          rw [hid, ← h0] at hmem
          exact (List.nodup_cons.mp (by simpa using hnd)).1 hmem
      · rw [updateFirst, if_neg h0] at hd
        rcases List.mem_cons.mp hd with hdu | hdr
        · exact absurd (hdu ▸ hid) h0
        · exact ih d (List.nodup_cons.mp (by simpa using hnd)).2 hdr hid

theorem updateFirst_mem_ne (eid : String) (r : Int) (pd : List ParsedIdentity) :
    ∀ (devs : List DeviceRec) (d : DeviceRec),
      d ∈ updateFirst eid r pd devs → d.deviceId ≠ eid → d ∈ devs := by
  intro devs
  induction devs with
  | nil => intro d hd _; simp [updateFirst] at hd
  | cons d0 rest ih =>
      intro d hd hne
      by_cases h0 : d0.deviceId = eid
      · rw [updateFirst, if_pos h0] at hd
        rcases List.mem_cons.mp hd with hdu | hdr
        · exact absurd (by rw [hdu]; exact h0) hne
        · exact List.mem_cons.mpr (Or.inr hdr)
      · rw [updateFirst, if_neg h0] at hd
        rcases List.mem_cons.mp hd with hdu | hdr
        · exact List.mem_cons.mpr (Or.inl hdu)
        · exact List.mem_cons.mpr (Or.inr (ih d hdr hne))

theorem lastAdvFor_append (evs : List ScanEvent) (e : ScanEvent) (id : String) :
    lastAdvFor (evs ++ [e]) id =
      if e.id = id then some e else lastAdvFor evs id := by
  unfold lastAdvFor
  rw [List.filter_append]
  by_cases h : e.id = id
  · simp [List.filter, h, List.getLast?_concat]
  · simp [List.filter, h]

theorem runRegistry_append (evs : List ScanEvent) (e : ScanEvent) :
    runRegistry (evs ++ [e]) = applyScanResult (runRegistry evs) e := by
  simp [runRegistry, List.foldl_append]

theorem applyScanResult_ok (devs : List DeviceRec) (e : ScanEvent)
    (pd : List ParsedIdentity)
    (hpd : parseManufacturerData e.manufacturerData = .ok pd) :
    applyScanResult devs e =
      if ∃ d ∈ devs, d.deviceId = e.id then updateFirst e.id e.rssi pd devs
      else devs ++ [{ deviceId := e.id, name := e.name, rssi := e.rssi,
                      parsedManufacturerData := pd }] := by
  unfold applyScanResult
  rw [hpd]

/-! ## Claim theorems -/

/-- Claim C1: for every manufacturer payload of at least 20 bytes, the
decoder (`parseManufacturerData` on one payload) is deterministic (it is
a pure function of the payload) and returns exactly the little-endian
4-byte value of bytes 0-3 as `modelId`, of bytes 4-7 as `probeId`, of
bytes 8-11 rendered as lowercase hex digits without radix prefix as the
serial number, and the unsigned byte at offset 19 — unclamped — as
`batteryStateOfCharge`. -/
theorem claim_C1_manufacturer_decode_layout (p : List Nat) (h : 20 ≤ p.length) :
    parseOne p = .ok { modelId := "0x" ++ uint32ToHex8 (leU32 p 0)
                       probeId := "0x" ++ uint32ToHex8 (leU32 p 4)
                       probeSerialNumber := uint32ToHex8 (leU32 p 8)
                       batteryStateOfCharge := byteD p 19 } :=
  parseOne_spec p h

/-- Claim C1 witness: the payload starting `00 23 00 11, 01 14 00 11,
50 16 00 11` with byte 19 = `0x5A` decodes to `modelId = 0x11002300`,
`probeId = 0x11001401`, `serialNumber = "11001650"`, battery 90. -/
theorem claim_C1_manufacturer_decode_layout_witness :
    parseOne [0x00, 0x23, 0x00, 0x11, 0x01, 0x14, 0x00, 0x11,
        0x50, 0x16, 0x00, 0x11, 0, 0, 0, 0, 0, 0, 0, 0x5A] =
      .ok ⟨"0x11002300", "0x11001401", "11001650", 90⟩ :=
  (claim_C1_manufacturer_decode_layout
      [0x00, 0x23, 0x00, 0x11, 0x01, 0x14, 0x00, 0x11,
        0x50, 0x16, 0x00, 0x11, 0, 0, 0, 0, 0, 0, 0, 0x5A]
      (by decide)).trans (by rfl)

/-- Claim C2: a manufacturer payload shorter than 20 bytes always yields
the typed decode failure (`tooShort`, the `RangeError` of an
out-of-range `DataView` read) and never a partial identity; moreover the
decoder never reads a byte index past the fixed 20-byte layout — its
result depends only on the first 20 bytes of the payload (and every read
is bounds-checked by construction of `byteAt`). -/
theorem claim_C2_short_payload_fails (p : List Nat) :
    (p.length < 20 → parseOne p = .error .tooShort) ∧
    parseOne p = parseOne (p.take 20) := by
  constructor
  · intro h
    exact parseOne_err_of_byte19 p (byteAt_none p 19 (by omega))
  · simp only [parseOne,
      byteAt_take p 20 0 (by omega), byteAt_take p 20 1 (by omega),
      byteAt_take p 20 2 (by omega), byteAt_take p 20 3 (by omega),
      byteAt_take p 20 4 (by omega), byteAt_take p 20 5 (by omega),
      byteAt_take p 20 6 (by omega), byteAt_take p 20 7 (by omega),
      byteAt_take p 20 8 (by omega), byteAt_take p 20 9 (by omega),
      byteAt_take p 20 10 (by omega), byteAt_take p 20 11 (by omega),
      byteAt_take p 20 19 (by omega)]

/-- Claim C2 witness: the 3-byte payload `[1, 2, 3]` fails with
`tooShort`. -/
theorem claim_C2_short_payload_fails_witness :
    parseOne [1, 2, 3] = .error .tooShort ∧
      parseOne [1, 2, 3] = parseOne ([1, 2, 3].take 20) :=
  ⟨(claim_C2_short_payload_fails [1, 2, 3]).1 (by decide),
    (claim_C2_short_payload_fails [1, 2, 3]).2⟩

/-- Claim C3: the proximity classifier is total — every signal-strength
value yields one of the five labels of the fixed table — and the sample
points classify as `-59 → VERY CLOSE`, `-65 → NEAR`, `-75 → FAR`,
`-85 → VERY FAR`, and `-95 → Unknown` with the neutral severity
(`gray`). -/
theorem claim_C3_classifier_total_and_samples :
    (∀ r : Int, getRssiDescription r ∈
      [(⟨"VERY CLOSE", "green"⟩ : RssiDescription), ⟨"NEAR", "green"⟩,
        ⟨"FAR", "darkorange"⟩, ⟨"VERY FAR", "red"⟩, ⟨"Unknown", "gray"⟩]) ∧
    getRssiDescription (-59) = ⟨"VERY CLOSE", "green"⟩ ∧
    getRssiDescription (-65) = ⟨"NEAR", "green"⟩ ∧
    getRssiDescription (-75) = ⟨"FAR", "darkorange"⟩ ∧
    getRssiDescription (-85) = ⟨"VERY FAR", "red"⟩ ∧
    getRssiDescription (-95) = ⟨"Unknown", "gray"⟩ := by
  refine ⟨fun r => ?_, by decide, by decide, by decide, by decide, by decide⟩
  rw [getRssiDescription_eq r]
  split_ifs <;> simp

/-- Claim C4 counterexample: the claim demands that a strictly stronger
reading never yield a weaker-**or-equal** label, but `-61` and `-62`
both classify as `NEAR`: the strictly stronger `-61` yields a label
equal to (hence weaker-or-equal to) that of `-62`. -/
theorem claim_C4_counterexample :
    ((-62 : Int) < -61) ∧
    getRssiDescription (-61) = getRssiDescription (-62) ∧
    labelRank (getRssiDescription (-61)).description ≤
      labelRank (getRssiDescription (-62)).description := by decide

/-- Claim C4 (amended): the classifier is monotone non-strictly — a
strictly stronger (less negative) reading never yields a strictly
weaker label, under the order `VERY CLOSE > NEAR > FAR > VERY FAR >
Unknown`. -/
theorem claim_C4_classifier_monotone (r1 r2 : Int) (h : r2 < r1) :
    labelRank (getRssiDescription r2).description ≤
      labelRank (getRssiDescription r1).description := by
  rw [getRssiDescription_eq r1, getRssiDescription_eq r2]
  split_ifs <;> first | decide | omega

/-- Claim C4 witness: a reading of `-50` classifies at least as strongly
as a reading of `-100`. -/
theorem claim_C4_classifier_monotone_witness :
    labelRank (getRssiDescription (-100)).description ≤
      labelRank (getRssiDescription (-50)).description :=
  claim_C4_classifier_monotone (-50) (-100) (by decide)

/-- Claim C6: when an advertisement's payload fails to decode,
`handleScanResult` leaves the registry exactly as it was — the record of
an already-registered id is neither removed nor is its previously
decoded identity replaced or nulled (the decode failure aborts the
handler before any state update). -/
theorem claim_C6_decode_failure_preserves (devs : List DeviceRec) (e : ScanEvent)
    (h : parseManufacturerData e.manufacturerData = .error .tooShort) :
    applyScanResult devs e = devs ∧ ∀ d ∈ devs, d ∈ applyScanResult devs e := by
  have h1 : applyScanResult devs e = devs := by
    unfold applyScanResult
    rw [h]
  exact ⟨h1, fun d hd => by rw [h1]; exact hd⟩

/-- Claim C6 witness: a registered device with a decoded identity
survives, untouched, an advertisement whose 3-byte payload fails to
decode. -/
theorem claim_C6_decode_failure_preserves_witness :
    applyScanResult [⟨"d1", none, -50, [⟨"0x11002300", "0x11001401", "11001650", 90⟩]⟩]
        ⟨"d1", none, -40, [[1, 2, 3]]⟩ =
      [⟨"d1", none, -50, [⟨"0x11002300", "0x11001401", "11001650", 90⟩]⟩] :=
  (claim_C6_decode_failure_preserves
      [⟨"d1", none, -50, [⟨"0x11002300", "0x11001401", "11001650", 90⟩]⟩]
      ⟨"d1", none, -40, [[1, 2, 3]]⟩ (by rfl)).1

/-- Claim C7 counterexample: the claim says the sequential command
number is unsigned, hence non-negative for every input; but the decoder
assembles it with JavaScript's signed 32-bit `<<`/`|`, so the 16-byte
frame whose bytes 4-7 are `00 00 00 80` decodes to the negative value
`-2147483648`. -/
theorem claim_C7_counterexample :
    (decodeAck [0, 0, 0x41, 1, 0, 0, 0, 0x80, 1, 0, 2, 0, 3, 0, 4, 0]).map
        (fun f => f.seqCommandNumber) = .ok (-2147483648) ∧
    (-2147483648 : Int) < 0 := by
  exact ⟨by rfl, by decide⟩

/-- Claim C7 (amended): for every acknowledgment payload of at least 16
bytes the decoder yields `commandType` = the character of byte 2,
`commandCode` = byte 3, `sequentialCommandNumber` = the little-endian
32-bit value of bytes 4-7 interpreted as a **signed** (two's-complement)
32-bit integer — negative whenever byte 7 is `0x80` or above — and the
four little-endian unsigned 16-bit fields from byte pairs 8-9, 10-11,
12-13, 14-15; bytes 0-1 never affect the result. -/
theorem claim_C7_ack_decode_layout (p : List Nat) :
    (16 ≤ p.length →
      decodeAck p = .ok { commandType := Char.ofNat (byteD p 2)
                          commandCode := byteD p 3
                          seqCommandNumber := toInt32 (leU32 p 4)
                          dataByteCount := byteD p 8 + 256 * byteD p 9
                          dataChecksum := byteD p 10 + 256 * byteD p 11
                          headerChecksum := byteD p 12 + 256 * byteD p 13
                          commandStatus := byteD p 14 + 256 * byteD p 15 }) ∧
    ∀ a b a' b' rest, decodeAck (a :: b :: rest) = decodeAck (a' :: b' :: rest) := by
  constructor
  · intro h
    have e4 : toInt32 (byteD p 4 + 256 * byteD p 5 + 65536 * byteD p 6 +
        16777216 * byteD p 7) = toInt32 (leU32 p 4) := by
      simp [leU32]
    simp only [decodeAck,
      byteAt_eq p 2 (by omega), byteAt_eq p 3 (by omega), byteAt_eq p 4 (by omega),
      byteAt_eq p 5 (by omega), byteAt_eq p 6 (by omega), byteAt_eq p 7 (by omega),
      byteAt_eq p 8 (by omega), byteAt_eq p 9 (by omega), byteAt_eq p 10 (by omega),
      byteAt_eq p 11 (by omega), byteAt_eq p 12 (by omega), byteAt_eq p 13 (by omega),
      byteAt_eq p 14 (by omega), byteAt_eq p 15 (by omega), e4]
  · intro a b a' b' rest
    rfl

/-- Claim C7 witness: the frame `00 00 41 01 | 78 56 34 12 | 01 00 |
02 00 | 03 00 | 04 00` decodes to commandType `A`, commandCode 1,
sequential number `0x12345678`, and 16-bit fields 1, 2, 3, 4. -/
theorem claim_C7_ack_decode_layout_witness :
    decodeAck [0, 0, 0x41, 1, 0x78, 0x56, 0x34, 0x12, 1, 0, 2, 0, 3, 0, 4, 0] =
      .ok ⟨'A', 1, 0x12345678, 1, 2, 3, 4⟩ :=
  ((claim_C7_ack_decode_layout
      [0, 0, 0x41, 1, 0x78, 0x56, 0x34, 0x12, 1, 0, 2, 0, 3, 0, 4, 0]).1
    (by decide)).trans (by rfl)

/-- Claim C8 counterexample: `stopScan`'s `catch` block rethrows the
transport error, so when the underlying `stopLEScan` call fails —
e.g. because no scan session was ever started — `stopScan` raises
instead of swallowing the failure; it is not a never-throwing teardown
call. -/
theorem claim_C8_counterexample :
    stopScan (.err "scan was never started") = .error "scan was never started" ∧
    stopScan (.err "scan was never started") ≠ .ok () :=
  ⟨rfl, fun h => Except.noConfusion h⟩

/-- Claim C8 (amended): `handleDisconnectFromDevice` never raises — for
every transport outcome and prior connection state its `catch` block
swallows the failure and it returns normally; `stopScan` returns
normally when the transport's stop succeeds, but rethrows (propagates)
any transport failure to its caller. -/
theorem claim_C8_teardown_behaviour :
    (∀ (t : TransportOutcome) (c : Option String),
      ∃ v, handleDisconnectFromDevice t c = .ok v) ∧
    stopScan .ok = .ok () ∧
    (∀ e, stopScan (.err e) = .error e) := by
  refine ⟨fun t c => ?_, rfl, fun e => rfl⟩
  cases t with
  | ok => exact ⟨none, rfl⟩
  | err e => exact ⟨c, rfl⟩

/-- Claim C9: the outgoing commands are deterministic single-byte
payloads — `sendBeep` writes exactly the byte `0x06` and
`readSerialNumber` writes exactly the byte `0x21` (both via
`hexStringToDataView` on the corresponding literal). -/
theorem claim_C9_command_bytes :
    sendBeepBytes = [0x06] ∧ readSerialNumberBytes = [0x21] := ⟨rfl, rfl⟩

/-- Claim C10: for every payload of at least 20 bytes the decoded
serial number has exactly 8 characters, all lowercase hex digits
(leading zeros preserved), and `modelId`/`probeId` are `0x` followed by
exactly 8 lowercase hex digits. -/
theorem claim_C10_hex_string_shape (p : List Nat) (h : 20 ≤ p.length) :
    ∃ r, parseOne p = .ok r ∧
      r.probeSerialNumber.length = 8 ∧
      r.probeSerialNumber.data.all isLowerHexDigit = true ∧
      (∃ s, r.modelId = "0x" ++ s ∧ s.length = 8 ∧
        s.data.all isLowerHexDigit = true) ∧
      (∃ s, r.probeId = "0x" ++ s ∧ s.length = 8 ∧
        s.data.all isLowerHexDigit = true) := by
  refine ⟨_, parseOne_spec p h, ?_, ?_, ⟨_, rfl, ?_, ?_⟩, ⟨_, rfl, ?_, ?_⟩⟩ <;>
    simp [uint32ToHex8_length, uint32ToHex8_lower]

/-- Claim C10 witness: the all-zero 20-byte payload decodes with serial
number `"00000000"` — leading zeros are preserved. -/
theorem claim_C10_hex_string_shape_witness :
    (∃ r, parseOne (List.replicate 20 0) = .ok r ∧
      r.probeSerialNumber.length = 8 ∧
      r.probeSerialNumber.data.all isLowerHexDigit = true ∧
      (∃ s, r.modelId = "0x" ++ s ∧ s.length = 8 ∧
        s.data.all isLowerHexDigit = true) ∧
      (∃ s, r.probeId = "0x" ++ s ∧ s.length = 8 ∧
        s.data.all isLowerHexDigit = true)) ∧
    parseOne (List.replicate 20 0) =
      .ok ⟨"0x00000000", "0x00000000", "00000000", 0⟩ :=
  ⟨claim_C10_hex_string_shape (List.replicate 20 0) (by decide), by rfl⟩

/-- Claim C5 counterexample: the claim quantifies over the whole
discovery path, but the accumulator of `scanForBleDevices` pushes a
device only on first sight and never updates it: after advertisements
for `d1` at rssi `-50` and then `-80`, the stored record still carries
`-50` while the most recent advertisement carried `-80` — a stale
earlier value, not last-write-wins. -/
theorem claim_C5_counterexample :
    (([⟨"d1", none, -50, []⟩, ⟨"d1", none, -80, []⟩] : List ScanEvent).foldl
        scanForBleDevicesStep []).map (fun d => d.rssi) = [-50] ∧
    (lastAdvFor [⟨"d1", none, -50, []⟩, ⟨"d1", none, -80, []⟩] "d1").map
        (fun e => e.rssi) = some (-80) ∧
    (-50 : Int) ≠ -80 := by decide

/-- Claim C5 (amended): for the registry maintained by
`handleScanResult`, after any sequence of advertisement events whose
payloads all decode (each at least 20 bytes), the device list contains
at most one record per id, and each record's signal strength and stored
payload data are those of the most recent advertisement for that id
(last-write-wins, no averaging).  The one-shot `scanForBleDevices`
accumulator, by contrast, only deduplicates: it keeps the first
advertisement's values. -/
theorem claim_C5_registry_last_write_wins (evs : List ScanEvent)
    (h : ∀ e ∈ evs, ∀ p ∈ e.manufacturerData, 20 ≤ p.length) :
    ((runRegistry evs).map (fun d => d.deviceId)).Nodup ∧
    ∀ d ∈ runRegistry evs, ∃ e, lastAdvFor evs d.deviceId = some e ∧
      d.rssi = e.rssi ∧
      parseManufacturerData e.manufacturerData = .ok d.parsedManufacturerData := by
  induction evs using List.reverseRecOn with
  | nil => exact ⟨by simp [runRegistry], fun d hd => by simp [runRegistry] at hd⟩
  | append_singleton evs e ih =>
      obtain ⟨ihN, ihL⟩ := ih (fun e' he' => h e' (by simp [he']))
      obtain ⟨pd, hpd⟩ :=
        parseManufacturerData_ok e.manufacturerData (h e (by simp))
      rw [runRegistry_append, applyScanResult_ok (runRegistry evs) e pd hpd]
      by_cases hex : ∃ d ∈ runRegistry evs, d.deviceId = e.id
      · rw [if_pos hex]
        constructor
        · rw [updateFirst_map_id]; exact ihN
        · intro d hd
          by_cases hid : d.deviceId = e.id
          · obtain ⟨hr, hp⟩ :=
              updateFirst_mem_eq e.id e.rssi pd (runRegistry evs) d ihN hd hid
            refine ⟨e, ?_, hr, by rw [hp]; exact hpd⟩
            rw [hid, lastAdvFor_append]
            simp
          · have hd' := updateFirst_mem_ne e.id e.rssi pd (runRegistry evs) d hd hid
            obtain ⟨e', he1, he2, he3⟩ := ihL d hd'
            refine ⟨e', ?_, he2, he3⟩
            rw [lastAdvFor_append, if_neg (fun hc => hid hc.symm)]
            exact he1
      · rw [if_neg hex]
        push_neg at hex
        constructor
        · rw [List.map_append]
          rw [List.nodup_append]
          refine ⟨ihN, by simp, ?_⟩
          intro x hx hx2
          simp at hx2
          obtain ⟨d, hd, hdx⟩ := List.mem_map.mp hx
          exact hex d hd (by rw [hdx, hx2])
        · intro d hd
          rcases List.mem_append.mp hd with hdl | hdr
          · obtain ⟨e', he1, he2, he3⟩ := ihL d hdl
            have hne : d.deviceId ≠ e.id := hex d hdl
            refine ⟨e', ?_, he2, he3⟩
            rw [lastAdvFor_append, if_neg (fun hc => hne hc.symm)]
            exact he1
          · simp at hdr
            refine ⟨e, ?_, ?_, ?_⟩
            · rw [hdr, lastAdvFor_append]
              simp
            · rw [hdr]
            · rw [hdr]
              exact hpd

/-- Claim C5 witness: two advertisements for `d1`, at rssi `-50` then
`-80`, leave the `handleScanResult` registry with a single,
duplicate-free record. -/
theorem claim_C5_registry_last_write_wins_witness :
    ((runRegistry [⟨"d1", none, -50, [List.replicate 20 0]⟩,
        ⟨"d1", none, -80, [List.replicate 20 0]⟩]).map
      (fun d => d.deviceId)).Nodup :=
  (claim_C5_registry_last_write_wins
      [⟨"d1", none, -50, [List.replicate 20 0]⟩,
        ⟨"d1", none, -80, [List.replicate 20 0]⟩]
      (by decide)).1
